import Mathlib

/-!
Shallow embedding of `src/commands.ts` of the coc-deno extension: the
command-to-protocol bridge and terminal-lifecycle manager.  Pure data
(configuration reads, argument building, request payloads) is translated to
Lean functions; the module-level mutable `terminal` variable becomes an
explicit `TerminalState` threaded through the `test` command; collaborator
calls that can throw are modelled with `Except`; collaborator side effects
(configuration updates, messages, editor commands) become explicit event
lists.
-/

namespace CocDeno

/-- Extension configuration namespace.  Modelled from the spec: the constant
lives in `src/constants.ts`, which is not part of the provided sources; the
spec calls it "an extension-identifying prefix" and the extension is the Deno
extension, so the namespace string is "deno".  No claim depends on its value. -/
def EXTENSION_NS : String := "deno"

/-- Modelled from the spec: `Uri` comes from the external editor library
(coc.nvim), an external collaborator, not this repository.  A parsed URI is
represented by its raw string. -/
structure Uri where
  raw : String
  deriving Repr, DecidableEq

/-- Modelled from the spec: `Uri.parse` of the external editor library. -/
def Uri.parse (s : String) : Uri := ⟨s⟩

/-- Modelled from the spec: `fsPath` of the external editor library, "the
filesystem path derived from the target URI": for a file URI it strips the
`file://` scheme prefix, otherwise it is left unchanged. -/
def Uri.fsPath (u : Uri) : String :=
  if "file://".data.isPrefixOf u.raw.data then u.raw.drop 7 else u.raw

/-- Helper for `splitOnChar`: accumulates the current segment (reversed). -/
def splitOnCharAux (sep : Char) : List Char → List Char → List String
  | [], acc => [String.mk acc.reverse]
  | c :: cs, acc =>
    if c = sep then String.mk acc.reverse :: splitOnCharAux sep cs []
    else splitOnCharAux sep cs (c :: acc)

/-- Modelled from the spec: JavaScript `String.prototype.split` with a
single-character separator, as used by `content.split("\n")` in the status
command: the string is cut at every occurrence of the separator, keeping
empty segments (so the result always has one more segment than there are
separator occurrences). -/
def splitOnChar (sep : Char) (s : String) : List String :=
  splitOnCharAux sep s.data []

/-- Cursor position, as passed through `showReferences` (external editor
library type; only carried, never inspected, by the source). -/
structure Position where
  line : Nat
  character : Nat
  deriving Repr, DecidableEq

/-- Source location, as passed through `showReferences` (external editor
library type; only carried, never inspected, by the source). -/
structure Location where
  uri : String
  startPos : Position
  endPos : Position
  deriving Repr, DecidableEq

/-- Values written through `config.update` in `src/commands.ts`. -/
inductive ConfigValue where
  | bool (b : Bool)
  | str (s : String)
  | strList (l : List String)
  deriving Repr, DecidableEq

/-- Observable side effects on external collaborators performed by
`initializeWorkspace` and `checkTSServer` (configuration updates, the user
message, the editor-host restart command). -/
inductive Event where
  | updateConfig (ns key : String) (value : ConfigValue)
  | showMessage (msg : String)
  | nvimCommand (cmd : String)
  deriving Repr, DecidableEq

/-- The extension configuration store read by `test`
(`workspace.getConfiguration(EXTENSION_NS)` in `src/commands.ts` lines
113-124).  A field is `none` when the key is absent: `config.has key` is
`Option.isSome` and `config.get key default` is `Option.getD`. -/
structure DenoConfig where
  codeLensTestArgs : Option (List String)
  unstable : Option Bool
  importMap : Option String
  cache : Option String
  path : Option String
  deriving Repr, DecidableEq

/-- Lines 114-120 of `src/commands.ts`: start from `codeLens.testArgs`
(defaulting to the empty list), push `--unstable` if the config has the key
`unstable`, push `--import-map` and the configured value if the config has
the key `importMap`. -/
def buildTestArgs (cfg : DenoConfig) : List String := Id.run do
  let mut testArgs := cfg.codeLensTestArgs.getD []
  if cfg.unstable.isSome then
    testArgs := testArgs.concat "--unstable"
  if cfg.importMap.isSome then
    testArgs := (testArgs.concat "--import-map").concat (cfg.importMap.getD "")
  return testArgs

/-- Lines 121-123 of `src/commands.ts`: the environment overlay is
`{DENO_DIR: config.get "cache"}` when the config has the key `cache`, and
absent (`undefined`, here `none`) otherwise. -/
def buildEnv (cfg : DenoConfig) : Option (List (String × String)) :=
  if cfg.cache.isSome then some [("DENO_DIR", cfg.cache.getD "")] else none

/-- The command line prepared by `test` before it touches the terminal:
executable (line 124), argument list (lines 125-131) and environment
overlay (lines 121-123). -/
structure TestCommand where
  bin : String
  args : List String
  env : Option (List (String × String))
  deriving Repr, DecidableEq

/-- The text sent to the terminal at line 138 of `src/commands.ts`:
executable and arguments joined by single spaces. -/
def TestCommand.sentText (cmd : TestCommand) : String :=
  cmd.bin ++ " " ++ String.intercalate " " cmd.args

/-- Lines 114-131 of `src/commands.ts` for an already resolved configuration:
the executable defaults to `deno`, the argument list is `test`, the built
test args, `--filter`, the test name wrapped in literal double quotes, and
the filesystem path of the parsed target URI. -/
def buildTestCommand (c : DenoConfig) (uriStr name : String) : TestCommand :=
  { bin := c.path.getD "deno"
    args := ["test"] ++ buildTestArgs c
      ++ ["--filter", "\"" ++ name ++ "\"", (Uri.parse uriStr).fsPath]
    env := buildEnv c }

/-- The preparation phase of `test` (lines 113-131): resolving the
configuration collaborator may throw, modelled by the `Except` argument;
building the command line from a resolved configuration is total, as in the
source.  The phase therefore fails exactly when configuration resolution
fails, and no terminal is touched in it. -/
def prepareTest (cfg : Except String DenoConfig) (uriStr name : String) :
    Except String TestCommand :=
  cfg.map (fun c => buildTestCommand c uriStr name)

/-- State of the module-level `terminal` variable (line 25 of
`src/commands.ts`), with terminal handles identified by creation order:
`live` is the id of the currently stored handle, `disposed` records every id
whose handle has been disposed, and `nextId` is the fresh-id supply of the
terminal factory. -/
structure TerminalState where
  live : Option Nat
  disposed : List Nat
  nextId : Nat
  deriving Repr, DecidableEq

/-- Initial state: no terminal has ever been created. -/
def TerminalState.initial : TerminalState := ⟨none, [], 0⟩

/-- The terminal created and stored by a successful `test` invocation
(line 137: `createTerminal({name, cwd: workspace.root, env})`) together with
the text sent to it (line 138). -/
structure CreatedTerminal where
  id : Nat
  name : String
  cwd : String
  env : Option (List (String × String))
  sentText : String
  deriving Repr, DecidableEq

/-- Lines 133-136 of `src/commands.ts`: if a terminal is currently live,
dispose it (recording the disposal) and clear the stored handle; otherwise
leave the state unchanged. -/
def disposeLive (s : TerminalState) : TerminalState :=
  match s.live with
  | some h => { live := none, disposed := s.disposed ++ [h], nextId := s.nextId }
  | none => s

/-- One invocation of `test` (`src/commands.ts` lines 112-139).  The command
line is prepared first (lines 113-131); if preparation throws, the error
propagates and the terminal state is untouched.  Otherwise, if a terminal is
live it is disposed and the stored handle cleared (lines 133-136), then a
fresh terminal is created with the test name, the workspace root as working
directory and the prepared environment overlay, stored as the live handle,
and the prepared command line is sent to it (lines 137-138). -/
def test (cfg : Except String DenoConfig) (root uriStr name : String)
    (s : TerminalState) : TerminalState × Except String CreatedTerminal :=
  match prepareTest cfg uriStr name with
  | .error e => (s, .error e)
  | .ok cmd =>
    let s1 := disposeLive s
    ({ live := some s1.nextId, disposed := s1.disposed, nextId := s1.nextId + 1 },
      .ok { id := s1.nextId, name := name, cwd := root, env := cmd.env
            sentText := cmd.sentText })

/-- One queued invocation of the test command. -/
structure TestInvocation where
  cfg : Except String DenoConfig
  root : String
  uri : String
  name : String

/-- A sequence of `test` invocations acting on the terminal state. -/
def runTests (s : TerminalState) (L : List TestInvocation) : TerminalState :=
  L.foldl (fun st inv => (test inv.cfg inv.root inv.uri inv.name st).1) s

/-- Lifecycle invariant of the terminal state: the live handle, when present,
is the most recently created one and exactly the earlier handles have been
disposed; when no handle is live, no handle was ever created. -/
def TerminalState.Inv (s : TerminalState) : Prop :=
  (∀ h, s.live = some h → s.nextId = h + 1 ∧ s.disposed = List.range h) ∧
  (s.live = none → s.nextId = 0 ∧ s.disposed = [])

/-- Payload of the Cache protocol request (`lsp_extensions` shape
`{referrer: {uri}, uris}`). -/
structure CacheParams where
  referrerUri : String
  uris : List String
  deriving Repr, DecidableEq

/-- The progress scope options passed to `window.withProgress`. -/
structure ProgressScope where
  title : String
  cancellable : Bool
  deriving Repr, DecidableEq

/-- What one invocation of the cache command does: the progress scope it
opens and the Cache requests it sends inside that scope. -/
structure CacheInvocation where
  progress : ProgressScope
  requests : List CacheParams
  deriving Repr, DecidableEq

/-- Modelled from the spec: `window.withProgress` of the external editor
library runs the wrapped action inside a progress scope with the given
options; here the scope options are paired with the requests the action
sends. -/
def withProgress (scope : ProgressScope) (requests : List CacheParams) :
    CacheInvocation :=
  { progress := scope, requests := requests }

/-- Raw string of a URI, as `document.uri.toString()` returns it. -/
def Uri.toString (u : Uri) : String := u.raw

/-- One invocation of the callback returned by `cache` (`src/commands.ts`
lines 40-54): `document` is the URI of the document active in the editor at
invocation time (`workspace.getCurrentState()` is called inside the
callback, so it is looked up per invocation, not captured at registration
time).  The callback opens a cancellable progress scope titled `caching`
and inside it sends one Cache request with the current document as referrer
and an empty `uris` list. -/
def cacheCommand (document : Uri) : CacheInvocation :=
  withProgress { title := "caching", cancellable := true }
    [{ referrerUri := document.toString, uris := [] }]

/-- Payload of the VirtualTextDocument protocol request. -/
structure VirtualTextDocumentParams where
  textDocumentUri : String
  deriving Repr, DecidableEq

/-- One invocation of the callback returned by `status` (`src/commands.ts`
lines 104-109) as a function of the response `content`: the request sent
(with the fixed URI `deno:/status.md`) and the lines handed to
`window.echoLines`, the response split on the newline character. -/
def status (content : String) : VirtualTextDocumentParams × List String :=
  ({ textDocumentUri := "deno:/status.md" }, splitOnChar '\n' content)

/-- An `editor.action.showReferences` editor-command execution issued by
`showReferences`. -/
structure ShowReferencesCall where
  command : String
  uri : Uri
  position : Position
  locations : List Location
  deriving Repr, DecidableEq

/-- Lines 84-96 of `src/commands.ts`: with a falsy (empty) `uri` the function
returns at once; otherwise it executes exactly one
`editor.action.showReferences` command with the parsed URI, the position and
the locations. -/
def showReferences (uriStr : String) (pos : Position) (locs : List Location) :
    List ShowReferencesCall :=
  if uriStr = "" then []
  else [{ command := "editor.action.showReferences", uri := Uri.parse uriStr
          position := pos, locations := locs }]

/-- Lines 168-175 of `src/commands.ts`: read the boolean `enable` setting of
the `tsserver` configuration namespace (`ts`, `none` when absent); if it is
truthy, update it to `false` and issue the `CocRestart` editor-host restart
command.  Returns the new value of the setting and the emitted events. -/
def checkTSServer (ts : Option Bool) : Option Bool × List Event :=
  if ts.getD false then
    (some false,
      [.updateConfig "tsserver" "enable" (.bool false), .nvimCommand "CocRestart"])
  else (ts, [])

/-- Picker item strings of `initializeWorkspace` (lines 60-62). -/
def lintingItem : String := "Enable Deno linting?"

/-- Picker item for unstable APIs (line 61 of `src/commands.ts`). -/
def unstableItem : String := "Enable Deno unstable APIs?"

/-- Picker item for disabling coc-prettier (line 62 of `src/commands.ts`). -/
def prettierItem : String := "Disable coc-prettier for current project?"

/-- The items offered by the picker (lines 63-66): linting and unstable
always, the prettier item only when the coc-prettier extension is found
among the installed extensions. -/
def initializeItems (prettierInstalled : Bool) : List String :=
  [lintingItem, unstableItem] ++ if prettierInstalled then [prettierItem] else []

/-- One invocation of the callback returned by `initializeWorkspace`
(`src/commands.ts` lines 58-81).  `picked` is the picker dialog result:
`none` when the user dismissed it (`showPickerDialog` returned a falsy
value, causing the early return at line 68), `some settings` when the user
confirmed a (possibly empty) selection.  `ts` is the current `tsserver`
`enable` setting, threaded into the final `checkTSServer()` call.  Returns
the new `tsserver` setting and the emitted events in order. -/
def initializeWorkspace (picked : Option (List String)) (ts : Option Bool) :
    Option Bool × List Event :=
  match picked with
  | none => (ts, [])
  | some settings =>
    let updates : List Event :=
      [.updateConfig EXTENSION_NS "enable" (.bool true),
       .updateConfig EXTENSION_NS "lint" (.bool (settings.contains lintingItem)),
       .updateConfig EXTENSION_NS "unstable" (.bool (settings.contains unstableItem))]
      ++ (if settings.contains prettierItem then
            [.updateConfig "prettier" "disableLanguages"
              (.strList ["typescript", "javascript"])]
          else [])
      ++ [.showMessage "Deno is now setup in this workspace."]
    let after := checkTSServer ts
    (after.1, updates ++ after.2)

/-- Sample configuration with every key absent, used by concrete witnesses. -/
def emptyConfig : DenoConfig := ⟨none, none, none, none, none⟩

/-- Sample test-command invocation used by concrete witnesses. -/
def sampleInvocation : TestInvocation :=
  ⟨.ok emptyConfig, "/w", "file:///a/b.ts", "t1"⟩

end CocDeno

deriving instance DecidableEq for Except

namespace CocDeno

theorem disposeLive_of_none {s : TerminalState} (h : s.live = none) :
    disposeLive s = s := by
  unfold disposeLive
  rw [h]

theorem disposeLive_of_some {s : TerminalState} {k : Nat} (h : s.live = some k) :
    disposeLive s = { live := none, disposed := s.disposed ++ [k], nextId := s.nextId } := by
  unfold disposeLive
  rw [h]

theorem test_of_prepare_ok {cfg : Except String DenoConfig} {root uri name : String}
    {cmd : TestCommand} (s : TerminalState) (hp : prepareTest cfg uri name = .ok cmd) :
    test cfg root uri name s
      = ({ live := some (disposeLive s).nextId, disposed := (disposeLive s).disposed
           nextId := (disposeLive s).nextId + 1 },
          .ok { id := (disposeLive s).nextId, name := name, cwd := root, env := cmd.env
                sentText := cmd.sentText }) := by
  unfold test
  rw [hp]

theorem test_of_prepare_error {cfg : Except String DenoConfig} {root uri name e : String}
    (s : TerminalState) (hp : prepareTest cfg uri name = .error e) :
    test cfg root uri name s = (s, .error e) := by
  unfold test
  rw [hp]

theorem inv_test {s : TerminalState} (hs : s.Inv) (cfg : Except String DenoConfig)
    (root uri name : String) : (test cfg root uri name s).1.Inv := by
  cases hp : prepareTest cfg uri name with
  | error e => rw [test_of_prepare_error s hp]; exact hs
  | ok cmd =>
    rw [test_of_prepare_ok s hp]
    cases hl : s.live with
    | none =>
      obtain ⟨h0, h1⟩ := hs.2 hl
      rw [disposeLive_of_none hl]
      exact ⟨fun h hh => by
          obtain rfl : s.nextId = h := by simpa using hh
          simp [h0, h1],
        fun hn => by simp at hn⟩
    | some k =>
      obtain ⟨h0, h1⟩ := hs.1 k hl
      rw [disposeLive_of_some hl]
      exact ⟨fun h hh => by
          obtain rfl : s.nextId = h := by simpa using hh
          simp [h0, h1, List.range_succ],
        fun hn => by simp at hn⟩

theorem inv_runTests (L : List TestInvocation) (s : TerminalState) (hs : s.Inv) :
    (runTests s L).Inv := by
  induction L generalizing s with
  | nil => exact hs
  | cons inv L ih =>
    exact ih ((test inv.cfg inv.root inv.uri inv.name s).1)
      (inv_test hs inv.cfg inv.root inv.uri inv.name)

theorem inv_initial : TerminalState.initial.Inv :=
  ⟨fun h hh => by simp [TerminalState.initial] at hh, fun _ => ⟨rfl, rfl⟩⟩

theorem test_ok_fresh {cfg : Except String DenoConfig} {root uri name : String}
    {s s2 : TerminalState} {t : CreatedTerminal} (hs : s.Inv)
    (h : test cfg root uri name s = (s2, .ok t)) :
    s2.live = some t.id ∧ t.id ∉ s.disposed ∧ s.live ≠ some t.id ∧
      ∀ k, s.live = some k → k ∈ s2.disposed := by
  cases hp : prepareTest cfg uri name with
  | error e => rw [test_of_prepare_error s hp] at h; simp at h
  | ok cmd =>
    rw [test_of_prepare_ok s hp] at h
    obtain ⟨rfl, ht⟩ : _ ∧ _ := Prod.mk.injEq .. ▸ h
    obtain rfl : _ = t := by simpa using ht
    cases hl : s.live with
    | none =>
      obtain ⟨h0, h1⟩ := hs.2 hl
      rw [disposeLive_of_none hl]
      refine ⟨rfl, by simp [h1], by simp [hl], fun k hk => by simp [hl] at hk⟩
    | some k =>
      obtain ⟨h0, h1⟩ := hs.1 k hl
      rw [disposeLive_of_some hl]
      refine ⟨rfl, ?_, ?_, fun k' hk' => ?_⟩
      · simp [h0, h1, List.mem_range]
      · simp only [ne_eq, Option.some.injEq]
        omega
      · obtain rfl : k = k' := by simpa [hl] using hk'
        simp

theorem splitOnCharAux_append (sep : Char) (l₁ l₂ : List Char) :
    ∀ acc, sep ∉ l₁ →
      splitOnCharAux sep (l₁ ++ sep :: l₂) acc
        = String.mk (acc.reverse ++ l₁) :: splitOnCharAux sep l₂ [] := by
  induction l₁ with
  | nil =>
    intro acc h
    simp [splitOnCharAux]
  | cons c cs ih =>
    intro acc h
    have hc : ¬ c = sep := fun hh => h (hh ▸ List.mem_cons_self c cs)
    have hcs : sep ∉ cs := fun hm => h (List.mem_cons_of_mem _ hm)
    simp only [List.cons_append, splitOnCharAux, if_neg hc, List.append_eq]
    rw [ih (c :: acc) hcs]
    simp

/-- C1: for every sequence of test-command invocations starting from the
initial state, at most one terminal handle is recorded as live: when handle
`h` is live (handles numbered in creation order), it is the most recently
created one and exactly the handles created before it have been disposed;
and any further successful invocation — for any configuration, file URI and
test name, including ones identical to a previous invocation's — stores a
handle that is fresh (never live before, never among the disposed ones)
after disposing and invalidating the previously live handle. -/
theorem test_single_live_terminal (L : List TestInvocation) :
    (∀ h, (runTests TerminalState.initial L).live = some h →
        (runTests TerminalState.initial L).nextId = h + 1 ∧
        (runTests TerminalState.initial L).disposed = List.range h) ∧
    ∀ cfg root uri name s2 t,
      test cfg root uri name (runTests TerminalState.initial L) = (s2, .ok t) →
        s2.live = some t.id ∧
        t.id ∉ (runTests TerminalState.initial L).disposed ∧
        (runTests TerminalState.initial L).live ≠ some t.id ∧
        ∀ k, (runTests TerminalState.initial L).live = some k → k ∈ s2.disposed := by
  have hInv := inv_runTests L TerminalState.initial inv_initial
  exact ⟨hInv.1, fun cfg root uri name s2 t h => test_ok_fresh hInv h⟩

/-- Witness for C1: a second invocation with the same file and test name as
the first disposes handle 0 and stores the fresh handle 1. -/
theorem test_single_live_terminal_witness :
    (runTests TerminalState.initial [sampleInvocation]).nextId = 0 + 1 ∧
    (runTests TerminalState.initial [sampleInvocation]).disposed = List.range 0 ∧
    (0 : Nat) ∈ (⟨some 1, [0], 2⟩ : TerminalState).disposed :=
  have H := test_single_live_terminal [sampleInvocation]
  have h1 := H.1 0 (by decide)
  have h2 := (H.2 (.ok emptyConfig) "/w" "file:///a/b.ts" "t1"
      ⟨some 1, [0], 2⟩ ⟨1, "t1", "/w", none, "deno test --filter \"t1\" /a/b.ts"⟩
      (by decide)).2.2.2 0 (by decide)
  ⟨h1.1, h1.2, h2⟩

/-- C2: the full command line of the test command is constructed before the
stored terminal is touched: when configuration resolution fails, the error
propagates and the terminal state — including a previously live terminal —
is returned untouched; and on success the text sent to the new terminal is
exactly the one determined by the preparation phase, independent of the
terminal state. -/
theorem test_error_before_dispose (cfg : Except String DenoConfig)
    (root uri name : String) (s : TerminalState) :
    (∀ e, cfg = .error e → test cfg root uri name s = (s, .error e)) ∧
    (test cfg root uri name s).2.map CreatedTerminal.sentText
      = (prepareTest cfg uri name).map TestCommand.sentText := by
  constructor
  · rintro e rfl
    rfl
  · cases hp : prepareTest cfg uri name with
    | error e =>
      rw [test_of_prepare_error s hp]
      rfl
    | ok cmd =>
      rw [test_of_prepare_ok s hp]
      rfl

/-- Witness for C2: a failing configuration resolution leaves a state with a
live terminal and five disposed ones exactly as it was. -/
theorem test_error_before_dispose_witness :
    test (.error "boom") "/w" "file:///a/b.ts" "t1" ⟨some 5, [0, 1, 2, 3, 4], 6⟩
      = (⟨some 5, [0, 1, 2, 3, 4], 6⟩, .error "boom") :=
  (test_error_before_dispose (.error "boom") "/w" "file:///a/b.ts" "t1"
      ⟨some 5, [0, 1, 2, 3, 4], 6⟩).1 "boom" rfl

/-- C3: with testArgs = ["--coverage"], the unstable flag set to true,
importMap unset, name "my test" and uri "file:///a/b.ts", the constructed
argument sequence is exactly ["test", "--coverage", "--unstable",
"--filter", "\"my test\"", "/a/b.ts"] — double-quote characters around the
name literal — and the text sent to the terminal is the executable and
these arguments joined by single spaces. -/
theorem test_argument_construction :
    prepareTest (.ok ⟨some ["--coverage"], some true, none, none, none⟩)
        "file:///a/b.ts" "my test"
      = .ok ⟨"deno",
          ["test", "--coverage", "--unstable", "--filter", "\"my test\"", "/a/b.ts"],
          none⟩ ∧
    (test (.ok ⟨some ["--coverage"], some true, none, none, none⟩) "/w"
        "file:///a/b.ts" "my test" TerminalState.initial).2
      = .ok ⟨0, "my test", "/w", none,
          "deno test --coverage --unstable --filter \"my test\" /a/b.ts"⟩ :=
  ⟨by decide, by decide⟩

/-- C4 counterexample: with the configuration key `unstable` present but set
to `false` (and an empty base testArgs list) the code still appends
`--unstable`, because line 115 of `src/commands.ts` tests key presence
(`config.has("unstable")`), not the boolean value; the claim requires that
`--unstable` not be appended when the flag is false. -/
theorem test_unstable_false_counterexample :
    (⟨some [], some false, none, none, none⟩ : DenoConfig).unstable = some false ∧
    buildTestArgs ⟨some [], some false, none, none, none⟩ = ["--unstable"] :=
  ⟨rfl, by decide⟩

/-- C4 (amended): the test command appends `--unstable` exactly when the
configuration has an `unstable` key — regardless of that key's boolean
value — and appends `--import-map` followed by the configured value exactly
when an `importMap` key is present. -/
theorem test_flag_appending (cfg : DenoConfig) :
    buildTestArgs cfg
      = cfg.codeLensTestArgs.getD []
        ++ (if cfg.unstable.isSome then ["--unstable"] else [])
        ++ (match cfg.importMap with
            | some v => ["--import-map", v]
            | none => []) := by
  unfold buildTestArgs
  cases hu : cfg.unstable <;> cases hm : cfg.importMap <;>
    simp [Id.run, hu, hm, List.concat_eq_append]

/-- C5: the environment overlay passed to terminal creation by the test
command is exactly {DENO_DIR: V} when a cache value V is present in the
configuration, entirely absent when cache is not present, and the created
terminal carries exactly this overlay. -/
theorem test_env_overlay (cfg : DenoConfig) :
    (∀ v, cfg.cache = some v → buildEnv cfg = some [("DENO_DIR", v)]) ∧
    (cfg.cache = none → buildEnv cfg = none) ∧
    ∀ root uri name s s2 t,
      test (.ok cfg) root uri name s = (s2, .ok t) → t.env = buildEnv cfg := by
  refine ⟨fun v hv => ?_, fun hv => ?_, fun root uri name s s2 t h => ?_⟩
  · simp [buildEnv, hv]
  · simp [buildEnv, hv]
  · have hp : prepareTest (.ok cfg) uri name = .ok (buildTestCommand cfg uri name) := rfl
    rw [test_of_prepare_ok s hp] at h
    obtain ⟨-, ht⟩ : _ ∧ _ := Prod.mk.injEq .. ▸ h
    obtain rfl : _ = t := by simpa using ht
    rfl

/-- Witness for C5: a present cache value yields exactly the DENO_DIR
overlay, an absent one yields no overlay at all. -/
theorem test_env_overlay_witness :
    buildEnv ⟨none, none, none, some "/deno-dir", none⟩
        = some [("DENO_DIR", "/deno-dir")] ∧
    buildEnv emptyConfig = none :=
  ⟨(test_env_overlay ⟨none, none, none, some "/deno-dir", none⟩).1 "/deno-dir" rfl,
    (test_env_overlay emptyConfig).2.1 rfl⟩

/-- C6: every invocation of the cache command opens a cancellable progress
scope titled "caching" and issues exactly one Cache request, whose payload
has the URI of the document active at invocation time as referrer and an
empty uris list; concretely, for current document file:///x.ts the payload
is {referrer: {uri: "file:///x.ts"}, uris: []}. -/
theorem cache_request_shape :
    (∀ d : Uri, cacheCommand d = ⟨⟨"caching", true⟩, [⟨d.toString, []⟩]⟩) ∧
    (∀ d : Uri, (cacheCommand d).requests.length = 1) ∧
    cacheCommand (Uri.parse "file:///x.ts")
      = ⟨⟨"caching", true⟩, [⟨"file:///x.ts", []⟩]⟩ :=
  ⟨fun _ => rfl, fun _ => rfl, rfl⟩

/-- C7: every invocation of the status command requests the virtual document
deno:/status.md and delivers the response split on the newline character to
the line-echo collaborator: the response "line1\nline2\nline3" is delivered
as ["line1", "line2", "line3"], and in general a leading newline-free
segment becomes the first delivered line. -/
theorem status_round_trip :
    (∀ c, (status c).1 = ⟨"deno:/status.md"⟩) ∧
    status "line1\nline2\nline3"
      = (⟨"deno:/status.md"⟩, ["line1", "line2", "line3"]) ∧
    ∀ a b : String, '\n' ∉ a.data →
      (status (a ++ "\n" ++ b)).2 = a :: (status b).2 := by
  refine ⟨fun _ => rfl, by decide, fun a b h => ?_⟩
  show splitOnChar '\n' (a ++ "\n" ++ b) = a :: splitOnChar '\n' b
  unfold splitOnChar
  have hd : (a ++ "\n" ++ b).data = a.data ++ '\n' :: b.data := by
    rw [String.data_append, String.data_append]
    have hn : ("\n" : String).data = ['\n'] := rfl
    rw [hn, List.append_assoc]
    rfl
  rw [hd, splitOnCharAux_append '\n' a.data b.data [] h]
  rfl

/-- Witness for C7: splitting a response of the form "line1\n" ++ rest
delivers "line1" as the first line. -/
theorem status_round_trip_witness :
    (status ("line1" ++ "\n" ++ "line2")).2 = "line1" :: (status "line2").2 :=
  status_round_trip.2.2 "line1" "line2" (by decide)

/-- C8 counterexample: with tsserver.enable = true, dismissing the picker
makes the Initialize-Workspace command return immediately — no events, and
the tsserver setting untouched — whereas the TSServer conflict check, had it
been invoked, would have flipped the setting and emitted events.  The
command therefore does not always finish by invoking the check. -/
theorem initializeWorkspace_dismiss_counterexample :
    initializeWorkspace none (some true) = (some true, []) ∧
    checkTSServer (some true) ≠ (some true, []) :=
  ⟨rfl, by decide⟩

/-- C8 (amended): every invocation in which the user confirms a selection
(even an empty one) finishes by invoking the TSServer conflict check, even
when no selection requires it; when the user dismisses the picker, the
command writes no configuration values and the check is not invoked. -/
theorem initializeWorkspace_confirmed_runs_check (ts : Option Bool) :
    (∀ settings : List String, ∃ pre : List Event,
        initializeWorkspace (some settings) ts
          = ((checkTSServer ts).1, pre ++ (checkTSServer ts).2)) ∧
    initializeWorkspace none ts = (ts, []) :=
  ⟨fun _ => ⟨_, rfl⟩, rfl⟩

/-- C9: the TSServer conflict check is idempotent: when the tsserver enable
setting is false or absent it writes nothing and issues no restart; when it
is true it updates the setting to false and issues exactly one editor-host
restart command; and running the check again after any run is a no-op. -/
theorem checkTSServer_idempotent (ts : Option Bool) :
    (ts ≠ some true → checkTSServer ts = (ts, [])) ∧
    (ts = some true →
      checkTSServer ts
        = (some false,
            [.updateConfig "tsserver" "enable" (.bool false),
             .nvimCommand "CocRestart"])) ∧
    checkTSServer (checkTSServer ts).1 = ((checkTSServer ts).1, []) := by
  refine ⟨fun h => ?_, fun h => ?_, ?_⟩
  · match ts, h with
    | none, _ => rfl
    | some false, _ => rfl
    | some true, h => exact absurd rfl h
  · subst h
    rfl
  · match ts with
    | none => rfl
    | some false => rfl
    | some true => rfl

/-- Witness for C9: running the check with the setting true flips it and
restarts once; with the setting absent nothing happens. -/
theorem checkTSServer_idempotent_witness :
    checkTSServer (some true)
      = (some false,
          [Event.updateConfig "tsserver" "enable" (ConfigValue.bool false),
           Event.nvimCommand "CocRestart"]) ∧
    checkTSServer none = (none, []) :=
  ⟨(checkTSServer_idempotent (some true)).2.1 rfl,
    (checkTSServer_idempotent none).1 (by decide)⟩

/-- C10: showReferences with an empty (falsy) uri executes no editor command
at all; with a non-empty uri it executes exactly one
editor.action.showReferences command carrying the parsed uri, the position
and the locations. -/
theorem showReferences_uri_guard (uriStr : String) (pos : Position)
    (locs : List Location) :
    (uriStr = "" → showReferences uriStr pos locs = []) ∧
    (uriStr ≠ "" → showReferences uriStr pos locs
        = [⟨"editor.action.showReferences", Uri.parse uriStr, pos, locs⟩]) := by
  constructor
  · rintro rfl
    rfl
  · intro h
    simp [showReferences, h]

/-- Witness for C10: an empty uri executes nothing; a file uri executes the
single showReferences editor command. -/
theorem showReferences_uri_guard_witness :
    showReferences "" ⟨1, 2⟩ [] = [] ∧
    showReferences "file:///x.ts" ⟨1, 2⟩ []
      = [⟨"editor.action.showReferences", Uri.parse "file:///x.ts", ⟨1, 2⟩, []⟩] :=
  ⟨(showReferences_uri_guard "" ⟨1, 2⟩ []).1 rfl,
    (showReferences_uri_guard "file:///x.ts" ⟨1, 2⟩ []).2 (by decide)⟩

end CocDeno
